import Mathlib

/-!
Verification of the concurrent contact-verification engine
(`src/email_scraper.py` of begonlabs/poligonos) against its specification.

The Python source is shallowly embedded here:
  * strings are `List Char` / `String`, Python string methods become
    executable Lean functions over `List Char`;
  * the two regular expressions that the claims depend on
    (`phone_pattern` and the `technical_id_patterns`) are embedded by
    deterministic matchers that agree with Python `re` semantics on those
    concrete patterns (the relevant backtracking cases are noted inline);
  * Python dicts become insertion-ordered association lists with
    Python-style `get` / `__setitem__`;
  * the network (playwright page fetch + the `urljoin` library function)
    is abstracted by function parameters of the worker model;
  * the browser pool is modelled by a labelled transition system whose
    atomic steps are `asyncio.Queue.get` / `put` (atomic between awaits
    on the single-threaded event loop).
-/

namespace Poligonos

/-! ## Python character classes and basic string operations -/

/-- Python `\s` (ASCII fragment; all inputs of interest are ASCII). -/
def isPySpace (c : Char) : Bool :=
  c = ' ' || c = '\t' || c = '\n' || c = '\r' || c = Char.ofNat 11 || c = Char.ofNat 12

/-- Characters removed by `re.sub(r'[\s\-\(\)]', '', phone)` in `normalize_phone`. -/
def isStripC (c : Char) : Bool :=
  isPySpace c || c = '-' || c = '(' || c = ')'

/-- `str.startswith` on character lists. -/
def startsWithL : List Char → List Char → Bool
  | [], _ => true
  | _ :: _, [] => false
  | p :: ps, c :: cs => if p = c then startsWithL ps cs else false

/-- `str.endswith` on character lists. -/
def endsWithL (p s : List Char) : Bool :=
  startsWithL p.reverse s.reverse

/-- Python `sub in s` (substring containment). -/
def containsSubL (p : List Char) : List Char → Bool
  | [] => startsWithL p []
  | c :: cs => startsWithL p (c :: cs) || containsSubL p cs

/-- Python `s.split(sep)` for a one-character separator: the result is
always non-empty and keeps empty fragments, exactly like `str.split`. -/
def splitOnCharL (sep : Char) : List Char → List (List Char)
  | [] => [[]]
  | c :: cs =>
    if c = sep then [] :: splitOnCharL sep cs
    else
      match splitOnCharL sep cs with
      | p :: ps => (c :: p) :: ps
      | [] => [[c]]

/-- Python `str.strip()` (ASCII whitespace fragment). -/
def pyStrip (s : List Char) : List Char :=
  ((s.dropWhile isPySpace).reverse.dropWhile isPySpace).reverse

/-- Python `str.lower()` (ASCII fragment: `Char.toLower`). -/
def pyLower (s : List Char) : List Char :=
  s.map Char.toLower

/-- `website.rstrip('/')`. -/
def rstripSlash (s : String) : String :=
  ⟨(s.data.reverse.dropWhile (fun c => c = '/')).reverse⟩

/-! ## `normalize_phone` (email_scraper.py lines 221-234) -/

def p0034 : List Char := ['0', '0', '3', '4']

def p34 : List Char := ['3', '4']

def pp34 : List Char := ['+', '3', '4']

/-- `re.sub(r'[\s\-\(\)]', '', phone)`. -/
def cleanPhone (l : List Char) : List Char :=
  l.filter (fun c => !isStripC c)

/-- The prefix-rewriting cascade of `normalize_phone` applied to the
already-cleaned digits. -/
def normCore (c : List Char) : List Char :=
  if startsWithL p0034 c then pp34 ++ c.drop 4
  else if startsWithL p34 c && decide (11 ≤ c.length) then pp34 ++ c.drop 2
  else if !startsWithL pp34 c && decide (c.length = 9) then pp34 ++ c
  else c

/-- `normalize_phone` on character lists; the leading `if not phone`
guard of the Python function returns `""` on the empty string. -/
def normalizePhoneL (l : List Char) : List Char :=
  if l = [] then [] else normCore (cleanPhone l)

/-- `ConcurrentContactVerifier.normalize_phone`. -/
def normalize_phone (s : String) : String :=
  ⟨normalizePhoneL s.data⟩

/-! ## `is_valid_email` (email_scraper.py lines 137-219)

The three denylist tables are copied verbatim from the constructor
(lines 27-69); they are Python sets/lists only iterated with membership
or `any`-style checks, so list order is irrelevant. -/

def invalid_email_extensions : List String := [
  ".png", ".jpg", ".jpeg", ".gif", ".svg", ".webp", ".ico", ".bmp",
  ".css", ".js", ".html", ".htm", ".pdf", ".doc", ".docx", ".xlsx",
  ".zip", ".rar", ".mp4", ".mp3", ".avi", ".mov", ".woff", ".ttf",
  ".json", ".xml", ".txt", ".log", ".tmp", ".cache", ".tiff", ".tif",
  ".eps", ".psd", ".ai", ".sketch", ".fig", ".xd", ".indd", ".raw",
  ".cr2", ".nef", ".arw", ".dng", ".orf", ".rw2", ".pef", ".sr2",
  ".3gp", ".flv", ".mkv", ".wmv", ".webm", ".m4v", ".m4a", ".aac",
  ".flac", ".ogg", ".wav", ".wma", ".opus", ".mid", ".midi", ".kar",
  ".woff2", ".eot", ".otf", ".swf", ".fla", ".as", ".scss", ".sass",
  ".less", ".styl", ".coffee", ".ts", ".jsx", ".tsx", ".vue", ".svelte",
  ".php", ".asp", ".aspx", ".jsp", ".cfm", ".cgi", ".pl", ".py", ".rb",
  ".go", ".rs", ".kt", ".swift", ".dart", ".scala", ".clj", ".hs",
  ".elm", ".purs", ".ml", ".fs", ".vb", ".cs", ".java", ".c", ".cpp",
  ".h", ".hpp", ".cc", ".cxx", ".m", ".mm", ".s", ".asm", ".sql",
  ".db", ".sqlite", ".mdb", ".accdb", ".dbf", ".backup", ".bak",
  ".old", ".orig", ".save", ".temp", ".lock", ".pid", ".sock",
  ".err", ".out", ".trace", ".dump", ".core", ".crash", ".dmp"]

def technical_domains : List String := [
  "sentry.io", "ingest.sentry.io", "sentry.wixpress.com", "sentry.com",
  "googletagmanager.com", "google-analytics.com", "facebook.com",
  "doubleclick.net", "googlesyndication.com", "googleadservices.com",
  "cloudflare.com", "amazonaws.com", "googleapis.com", "gstatic.com",
  "jsdelivr.net", "unpkg.com", "cdnjs.cloudflare.com",
  "tracking.com", "analytics.com", "metrics.com", "cdn.com",
  "static.com", "assets.com", "media.com", "img.com", "images.com",
  "fonts.com", "typekit.com", "adobe.com", "gravatar.com",
  "disqus.com", "addthis.com", "sharethis.com", "feedburner.com",
  "feedproxy.google.com", "mailchimp.com", "constantcontact.com",
  "aweber.com", "getresponse.com", "campaignmonitor.com",
  "verticalresponse.com", "icontact.com", "madmimi.com",
  "benchmark.email", "sendinblue.com", "mailgun.com", "sendgrid.com",
  "mandrill.com", "postmark.com", "sparkpost.com", "ses.amazonaws.com"]

def problematic_patterns : List String := [
  "ajax-loader", "spinner", "loading", "loader",
  "kit_mobile", "mobile_kit", "responsive",
  "@2x", "@3x", "retina", "thumbnail", "logo",
  "ingest", "tracking", "analytics", "metrics",
  "sentry", "error", "crash", "debug",
  "api_key", "access_token", "session_id",
  "image", "img", "picture", "photo", "icon",
  "asset", "resource", "static", "public",
  "example", "test", "sample", "placeholder", "dummy",
  "fake", "invalid", "noreply", "donotreply"]

def infra_subdomains : List String :=
  ["o408587", "api", "cdn", "static", "assets", "media", "img", "images"]

def suspicious_domains : List String := [
  "example.com", "test.com", "sample.com", "dummy.com",
  "fake.com", "invalid.com", "placeholder.com"]

/-- `[a-f0-9]` (the email was lower-cased before these checks run). -/
def hexLC (c : Char) : Bool := c.isDigit || ('a' ≤ c && c ≤ 'f')

/-- `[a-z0-9]`. -/
def lowerAlnum (c : Char) : Bool := c.isDigit || ('a' ≤ c && c ≤ 'z')

/-- `re.match(r'^[a-f0-9]{n}@', e)`: first `n` characters are lower-case
hex digits and the character right after them is `@`. -/
def hexIdAt (n : Nat) (e : List Char) : Bool :=
  decide ((e.take n).length = n) && (e.take n).all hexLC
    && decide ((e.drop n).take 1 = ['@'])

/-- `re.match(r'^[a-z0-9]{20,}@', e)`.  Because the class `[a-z0-9]`
cannot match `@`, the only split the backtracking engine can accept puts
the `@` immediately after the maximal alphanumeric run, so the match
succeeds exactly when that run has length at least 20 and is followed by
`@`. -/
def longAlnumId (e : List Char) : Bool :=
  let run := e.takeWhile lowerAlnum
  decide (20 ≤ run.length) && decide ((e.drop run.length).take 1 = ['@'])

/-- The four `technical_id_patterns` (lines 64-69), tried on the full
lower-cased email. -/
def techIdMatch (e : List Char) : Bool :=
  hexIdAt 32 e || hexIdAt 40 e || hexIdAt 64 e || longAlnumId e

/-- `ConcurrentContactVerifier.is_valid_email`, translated check by
check in source order. -/
def is_valid_email (email0 : String) : Bool :=
  if email0.data = [] then false
  else
    let e := pyStrip (pyLower email0.data)
    if decide (e.length < 5) || decide (100 < e.length) then false
    else if invalid_email_extensions.any (fun x => endsWithL x.data e) then false
    else if !decide (e.count '@' = 1) then false
    else
      let locp := e.takeWhile (fun c => !(c = '@'))
      let dom := (e.dropWhile (fun c => !(c = '@'))).drop 1
      if technical_domains.any
          (fun t => decide (dom = t.data) || endsWithL ('.' :: t.data) dom) then false
      else if techIdMatch e then false
      else if decide (locp.length < 1) || decide (64 < locp.length) then false
      else if startsWithL ['.'] locp || endsWithL ['.'] locp then false
      else if containsSubL ['.', '.'] locp then false
      else if decide (20 < locp.length) && locp.all hexLC then false
      else if decide (dom.length < 3) || decide (253 < dom.length) then false
      else if !dom.contains '.' then false
      else if startsWithL ['.'] dom || endsWithL ['.'] dom
          || startsWithL ['-'] dom || endsWithL ['-'] dom then false
      else if decide (((splitOnCharL '.' dom).getLastD []).length < 2) then false
      else if problematic_patterns.any (fun p => containsSubL p.data e) then false
      else if decide (2 < (splitOnCharL '.' dom).length)
          && infra_subdomains.any
            (fun s => decide ((splitOnCharL '.' dom).headD [] = s.data)) then false
      else if suspicious_domains.any (fun d => decide (dom = d.data)) then false
      else true

/-! ## `phone_pattern` (line 25) and the phone half of
`extract_contacts_from_page` (lines 256-265)

`phone_pattern = (\+34|0034)?\s*[6-9]\d{8}|(\+34|0034)?\s*[89]\d{8}`.
The pattern has exactly two capture groups — the two optional dial
prefixes; the nine-digit body is not inside any group.  `re.findall`
returns, for every non-overlapping leftmost match, the 2-tuple of group
captures (with `''` for a group that did not participate).

The matcher below is deterministic although the engine backtracks,
because the backtracking is vacuous for this pattern: `\s*` is followed
by a digit class (a space is never a digit, so only the maximal space
run can succeed), and when a literal prefix alternative matches the text
but the body after it fails, the remaining alternatives (`0034` after
`+34`, or the empty prefix) start from the same position with a
character (`+` or `0`) that can never begin `\s*[6-9]` resp. match the
other literal — except the empty-prefix retry after a failed `0034`,
where the body would have to start at `0`, which is outside `[6-9]` and
`[89]`.  Hence "first prefix alternative that lets the body match, in
regex order" is exactly the Python behaviour. -/

def digit69 (c : Char) : Bool := '6' ≤ c && c ≤ '9'

def digit89 (c : Char) : Bool := c = '8' || c = '9'

/-- Match `\s*F\d{8}` at the head of `s` (`F` given by `first`); return
the remainder after the match. -/
def matchBodyRe (first : Char → Bool) (s : List Char) : Option (List Char) :=
  match s.dropWhile isPySpace with
  | [] => none
  | c :: rest =>
    if first c && (rest.take 8).all Char.isDigit && decide (8 ≤ rest.length)
    then some (rest.drop 8) else none

/-- Match one alternative `(\+34|0034)?\s*F\d{8}` at the head of `s`;
return the capture of the group and the remainder. -/
def tryAltRe (first : Char → Bool) (s : List Char) : Option (String × List Char) :=
  match (if startsWithL pp34 s then matchBodyRe first (s.drop 3) else none) with
  | some rest => some ("+34", rest)
  | none =>
    match (if startsWithL p0034 s then matchBodyRe first (s.drop 4) else none) with
    | some rest => some ("0034", rest)
    | none =>
      match matchBodyRe first s with
      | some rest => some ("", rest)
      | none => none

/-- Match the whole `phone_pattern` at the head of `s`; return the
2-tuple of group captures exactly as `re.findall` reports them. -/
def tryMatchAt (s : List Char) : Option ((String × String) × List Char) :=
  match tryAltRe digit69 s with
  | some (g, rest) => some ((g, ""), rest)
  | none =>
    match tryAltRe digit89 s with
    | some (g, rest) => some (("", g), rest)
    | none => none

/-- Scan for non-overlapping leftmost matches.  Fuel decreases by one
per position while every successful match consumes at least nine
characters, so `fuel = s.length` never runs out before the scan ends. -/
def phoneFindAllAux : Nat → List Char → List (String × String)
  | 0, _ => []
  | _ + 1, [] => []
  | n + 1, c :: rest =>
    match tryMatchAt (c :: rest) with
    | some (gs, rest2) => gs :: phoneFindAllAux n rest2
    | none => phoneFindAllAux n rest

/-- `self.phone_pattern.findall(content)`. -/
def phoneFindAll (s : List Char) : List (String × String) :=
  phoneFindAllAux s.length s

/-- `list(set(xs))`, modelled with insertion order (CPython leaves the
order unspecified; the claims below only use it on results with at most
one distinct element, where every order coincides). -/
def dedupInsOrder (l : List String) : List String :=
  l.foldl (fun a x => if x ∈ a then a else a ++ [x]) []

/-- The phone half of `extract_contacts_from_page` (lines 256-265): for
each `findall` tuple, join the groups and normalize, then de-duplicate. -/
def extract_phones (content : String) : List String :=
  dedupInsOrder ((phoneFindAll content.data).map (fun g => normalize_phone (g.1 ++ g.2)))

/-! ## Python dicts and the business-record model

A dict is an insertion-ordered association list; `dictSet` replaces in
place (Python keeps the original position of an existing key) and
appends new keys at the end.  Values are the kinds appearing in business
records: strings, `None`, the nested verification-results record, and
opaque values for the record fields this engine never inspects. -/

/-- The `verification_results` record created at lines 283-290. -/
structure VRes where
  emails_found : List String
  phones_found : List String
  email_verified : Bool
  phone_verified : Bool
  pages_checked : List String
  error : Option String
deriving DecidableEq

inductive PyVal where
  | str (s : String)
  | pynone
  | vres (r : VRes)
  | other (tag : Nat)
deriving DecidableEq

def PyDict := List (String × PyVal)
deriving DecidableEq

def dictGet : PyDict → String → Option PyVal
  | [], _ => Option.none
  | (k', v) :: rest, k => if k' = k then some v else dictGet rest k

/-- Python `d.get(k, dflt)`. -/
def dictGetD (d : PyDict) (k : String) (dflt : PyVal) : PyVal :=
  (dictGet d k).getD dflt

def dictSet : PyDict → String → PyVal → PyDict
  | [], k, v => [(k, v)]
  | (k', v') :: rest, k, v =>
    if k' = k then (k, v) :: rest else (k', v') :: dictSet rest k v

/-- Python truthiness for the record values this engine tests. -/
def truthy : PyVal → Bool
  | .str s => !decide (s = "")
  | .pynone => false
  | .vres _ => true
  | .other _ => true

def truthyO : Option PyVal → Bool
  | some v => truthy v
  | Option.none => false

def asStr : PyVal → String
  | .str s => s
  | _ => ""

/-- `normalize_phone(business.get('telefono', ''))`: the guard
`if not phone` returns `""` for `None` before any string method runs. -/
def normalizePhonePy : PyVal → String
  | .str s => normalize_phone s
  | _ => ""

/-- The fresh verification-results value of lines 283-290. -/
def vr0 : VRes := ⟨[], [], false, false, [], Option.none⟩

/-- Read `result['verification_results']` (total: defaults to the fresh
record, which is what every access point has just stored). -/
def getVRes (d : PyDict) : VRes :=
  match dictGet d "verification_results" with
  | some (PyVal.vres r) => r
  | _ => vr0

/-- An in-place mutation of the nested `verification_results` dict. -/
def setVR (d : PyDict) (f : VRes → VRes) : PyDict :=
  dictSet d "verification_results" (PyVal.vres (f (getVRes d)))

/-! ## Shared progress state (`update_progress`, lines 382-390) -/

structure Progress where
  processed_count : Nat
  verified_emails_count : Nat
  verified_phones_count : Nat
  results : List PyDict
deriving DecidableEq

def updateProgress (pr : Progress) (result : PyDict) : Progress :=
  { processed_count := pr.processed_count + 1
    verified_emails_count := pr.verified_emails_count +
      (if truthyO (dictGet result "email") && (getVRes result).email_verified then 1 else 0)
    verified_phones_count := pr.verified_phones_count +
      (if (getVRes result).phone_verified then 1 else 0)
    results := pr.results ++ [result] }

/-! ## The verification worker (lines 273-380)

The network is abstracted by two parameters: `uj` models the stdlib
`urljoin`, and `fetch` models `extract_contacts_from_page`'s returned
`(emails, phones)` per URL (that call catches every exception and is
total).  `setup` models the only other failure point, an exception while
acquiring the browser / context / page before the path loop: `some msg`
records `str(e)` in the outcome, `none` is the normal run. -/

def contact_paths : List String :=
  ["", "/contacto", "/contact", "/contacta",
   "/sobre-nosotros", "/about", "/info", "/informacion"]

/-- `all_emails.update(emails)` on sets modelled as insertion-ordered
duplicate-free lists. -/
def setUnion (acc : List String) (xs : List String) : List String :=
  xs.foldl (fun a x => if x ∈ a then a else a ++ [x]) acc

/-- The path loop (lines 320-333): per path, resolve the URL, append it
to `pages_checked`, extract and accumulate.  Returns
`(pages_checked, all_emails, all_phones)`. -/
def crawl (uj : String → String → String)
    (fetch : String → List String × List String) (base : String) :
    List String → List String → List String → List String →
      List String × List String × List String
  | [], pages, es, ps => (pages, es, ps)
  | path :: rest, pages, es, ps =>
    let url := uj base path
    let r := fetch url
    crawl uj fetch base rest (pages ++ [url]) (setUnion es r.1) (setUnion ps r.2)

/-- Lines 281-290: `result = business.copy()`, then seed `email` and the
fresh `verification_results`. -/
def workerInit (b : PyDict) : PyDict :=
  dictSet (dictSet b "email" (dictGetD b "email" (PyVal.str "")))
    "verification_results" (PyVal.vres vr0)

def vrSetFound (r : PyDict) (aE aP : List String) : PyDict :=
  setVR r (fun v => { v with emails_found := aE, phones_found := aP })

/-- Line 338: `result.get('email', '').lower() if result.get('email') else None`. -/
def currentEmailOf (r : PyDict) : Option String :=
  match dictGet r "email" with
  | some v => if truthy v then some ⟨pyLower (asStr v).data⟩ else Option.none
  | Option.none => Option.none

/-- Lines 340-344: verify the pre-existing email/phone against the
accumulated sets. -/
def vrSetFlags (r : PyDict) (aE aP : List String) (cp : String) : PyDict :=
  setVR r (fun v =>
    { v with
      email_verified :=
        match currentEmailOf r with
        | some ce => decide (ce ∈ aE) && is_valid_email ce
        | Option.none => false
      phone_verified := !decide (cp = "") && decide (cp ∈ aP) })

/-- Lines 346-352: adopt the first validator-accepted email when the
record had none. -/
def adoptEmail (r : PyDict) (aE : List String) : PyDict :=
  match currentEmailOf r with
  | Option.none =>
    if aE ≠ [] then
      if aE.filter is_valid_email ≠ [] then
        setVR (dictSet r "email" (PyVal.str ((aE.filter is_valid_email).headD "")))
          (fun v => { v with email_verified := true })
      else r
    else r
  | some _ => r

/-- Lines 354-357: adopt the first phone when the record had none. -/
def adoptPhone (r : PyDict) (aP : List String) (cp : String) : PyDict :=
  if aP ≠ [] ∧ cp = "" then
    setVR (dictSet r "telefono" (PyVal.str (aP.headD "")))
      (fun v => { v with phone_verified := true })
  else r

/-- Lines 335-357 in source order. -/
def reconcile (r : PyDict) (cp : String) (aE aP : List String) : PyDict :=
  adoptPhone (adoptEmail (vrSetFlags (vrSetFound r aE aP) aE aP cp) aE) aP cp

structure WorkerRun where
  business : PyDict
  result : PyDict
  fetched : List String
  progress : Progress
deriving DecidableEq

/-- Lines 292-295: the no-website outcome. -/
def workerNoWebsite (b : PyDict) : PyDict :=
  setVR (workerInit b) (fun v => { v with error := some "No hay website" })

/-- Lines 359-361 for an exception raised before the path loop. -/
def workerSetupFail (b : PyDict) (msg : String) : PyDict :=
  setVR (workerInit b) (fun v => { v with error := some msg })

/-- The loop of lines 318-333 on the record's own website. -/
def workerCrawl (uj : String → String → String)
    (fetch : String → List String × List String) (b : PyDict) :
    List String × List String × List String :=
  crawl uj fetch (rstripSlash (asStr (dictGetD b "sitio_web" PyVal.pynone)))
    contact_paths [] [] []

/-- The result record of a successful run: pages recorded, then the
reconciliation of lines 335-357. -/
def workerMainResult (uj : String → String → String)
    (fetch : String → List String × List String) (b : PyDict) : PyDict :=
  reconcile
    (setVR (workerInit b) (fun v => { v with pages_checked := (workerCrawl uj fetch b).1 }))
    (normalizePhonePy (dictGetD b "telefono" (PyVal.str "")))
    (workerCrawl uj fetch b).2.1 (workerCrawl uj fetch b).2.2

/-- `verify_business_contacts_worker`.  `business` is threaded through
untouched (`.business` of the run) because no statement of the source
assigns into it; `fetched` records every URL handed to the extractor. -/
def runWorker (uj : String → String → String)
    (fetch : String → List String × List String)
    (setup : Option String) (b : PyDict) (pr : Progress) : WorkerRun :=
  if truthy (dictGetD b "sitio_web" PyVal.pynone) then
    match setup with
    | some msg =>
      ⟨b, workerSetupFail b msg, [], updateProgress pr (workerSetupFail b msg)⟩
    | Option.none =>
      ⟨b, workerMainResult uj fetch b, (workerCrawl uj fetch b).1,
        updateProgress pr (workerMainResult uj fetch b)⟩
  else
    ⟨b, workerNoWebsite b, [], updateProgress pr (workerNoWebsite b)⟩

def pr0 : Progress := ⟨0, 0, 0, []⟩

def ujApp : String → String → String := fun b p => b ++ p

def c3biz : PyDict :=
  [("nombre", PyVal.str "Acme"), ("sitio_web", PyVal.str "http://acme.es/")]

def c3fetch : String → List String × List String := fun u =>
  if u = "http://acme.es" then (["ventas@acme.es", "noreply@acme.es"], []) else ([], [])

/-! ## Claim C6 — the reported new-email count (lines 456-457)

`new_emails = sum(1 for b in self.results
                  if b.get('email') and
                     not businesses[self.results.index(b)].get('email'))`

`self.results.index(b)` is `b`'s position in the completion-ordered
results list, and that position is then used to index the *input* list
`businesses`, so the comparison pairs a result with whatever input
business happens to sit at the result's completion rank. -/

/-- The count computed by the orchestrator (lines 456-457):
`results.index(b)` is the first index of `b` in `results`, and the
businesses list is indexed with it. -/
def newEmailsCode (businesses results : List PyDict) : Nat :=
  (results.filter (fun b =>
    truthyO (dictGet b "email")
      && !truthyO (dictGet
            (businesses.getD (results.findIdx (fun r => decide (r = b))) []) "email"))).length

/-- The count the spec describes: the number of indices whose output
record has a truthy email while the same business's input record had
none (outputs aligned with inputs by business index). -/
def newEmailsTrue (businesses outputs : List PyDict) : Nat :=
  ((businesses.zip outputs).filter (fun p =>
    truthyO (dictGet p.2 "email") && !truthyO (dictGet p.1 "email"))).length

def c6b0 : PyDict := [("nombre", PyVal.str "A")]

def c6b1 : PyDict := [("nombre", PyVal.str "B"), ("email", PyVal.str "b@b.es")]

def c6r0 : PyDict := (runWorker ujApp c3fetch Option.none c6b0 pr0).result

def c6r1 : PyDict := (runWorker ujApp c3fetch Option.none c6b1 pr0).result

/-! ## Claim C5 — batch resumption (lines 392-410 and 473-477)

`get_input_files` globs `negocios_*.json` and `get_processed_files`
globs `email_*.json`, both in the same `data` directory, then maps each
email file name through `name.replace("email_", "negocios_")` — a
replace of *every* occurrence.  Since every compared path carries the
identical directory prefix, path equality reduces to file-name equality,
so the directory listing is modelled as a list of bare names. -/

/-- glob `negocios_*.json` (`*` matches any characters of a name). -/
def matchNegGlob (name : String) : Bool :=
  startsWithL "negocios_".data name.data && endsWithL ".json".data (name.data.drop 9)

/-- glob `email_*.json`. -/
def matchEmailGlob (name : String) : Bool :=
  startsWithL "email_".data name.data && endsWithL ".json".data (name.data.drop 6)

/-- Python `str.replace(pat, rep)`: replace every non-overlapping
occurrence, scanning left to right.  Fuel decreases once per consumed
character; a non-empty `pat` consumes at least one character per
replacement, so `fuel = s.length` never runs out. -/
def replaceAllAux (pat rep : List Char) : Nat → List Char → List Char
  | 0, s => s
  | _ + 1, [] => []
  | n + 1, c :: rest =>
    if startsWithL pat (c :: rest) then
      rep ++ replaceAllAux pat rep n ((c :: rest).drop pat.length)
    else c :: replaceAllAux pat rep n rest

def replaceAll (pat rep : List Char) (s : List Char) : List Char :=
  replaceAllAux pat rep s.length s

/-- `email_path.name.replace("email_", "negocios_")` (line 407). -/
def emailToNeg (name : String) : String :=
  ⟨replaceAll "email_".data "negocios_".data name.data⟩

/-- `get_input_files` on a directory listing. -/
def getInputNames (listing : List String) : List String :=
  listing.filter matchNegGlob

/-- `get_processed_files` on a directory listing. -/
def getProcessedNames (listing : List String) : List String :=
  (listing.filter matchEmailGlob).map emailToNeg

/-- `files_to_process = [f for f in input_files if f not in processed_files]`
(line 477). -/
def filesToProcessM (listing : List String) : List String :=
  (getInputNames listing).filter (fun f => !decide (f ∈ getProcessedNames listing))

/-! ## Claim C4 — the browser pool (lines 91-121)

`initialize_browsers` launches `max_browsers` distinct browser instances
and enqueues each once into `browser_queue`; `get_browser` awaits
`browser_queue.get()` (under `browser_semaphore`, which only bounds the
number of concurrent getters) and `return_browser` awaits
`browser_queue.put(browser)`.  On asyncio's single-threaded event loop
`get`/`put` complete atomically between awaits, so a worker interleaving
is a sequence of atomic steps: `get` hands the queue head to one worker,
`put` appends a held instance back.  Browsers are modelled by their
distinct launch indices; a state records the FIFO queue and the
(worker, browser) pairs currently held. -/

structure PoolState where
  queued : List Nat
  holding : List (Nat × Nat)
deriving DecidableEq

/-- Remove the first occurrence of a held (worker, browser) pair. -/
def removeFirst (p : Nat × Nat) : List (Nat × Nat) → List (Nat × Nat)
  | [] => []
  | x :: xs => if x = p then xs else x :: removeFirst p xs

inductive PoolStep : PoolState → PoolState → Prop where
  | get (w b : Nat) (q : List Nat) (h : List (Nat × Nat)) :
      PoolStep ⟨b :: q, h⟩ ⟨q, (w, b) :: h⟩
  | put (w b : Nat) (q : List Nat) (h : List (Nat × Nat)) (hmem : (w, b) ∈ h) :
      PoolStep ⟨q, h⟩ ⟨q ++ [b], removeFirst (w, b) h⟩

/-- After `initialize_browsers`: the `n` distinct instances queued, none
held. -/
def initPool (n : Nat) : PoolState := ⟨List.range n, []⟩

def PoolReachable (n : Nat) (s : PoolState) : Prop :=
  Relation.ReflTransGen PoolStep (initPool n) s

/-- Each browser instance exists exactly once across the queue and the
holders. -/
def PoolInv (s : PoolState) : Prop :=
  (s.queued ++ s.holding.map Prod.snd).Nodup

/-! ## Theorems -/

/-! ## Facts about `normalize_phone` needed for idempotence -/

lemma cleanPhone_idem (l : List Char) : cleanPhone (cleanPhone l) = cleanPhone l := by
  simp [cleanPhone, List.filter_filter]

lemma cleanPhone_eq_self_of_forall {l : List Char}
    (h : ∀ a ∈ l, isStripC a = false) : cleanPhone l = l := by
  apply List.filter_eq_self.mpr
  intro a ha
  simp [h a ha]

lemma forall_of_cleanPhone_eq_self {l : List Char}
    (h : cleanPhone l = l) : ∀ a ∈ l, isStripC a = false := by
  intro a ha
  have := List.filter_eq_self.mp h a ha
  simpa using this

lemma cleanPhone_pp34_append {t : List Char}
    (ht : cleanPhone t = t) : cleanPhone (pp34 ++ t) = pp34 ++ t := by
  apply cleanPhone_eq_self_of_forall
  intro a ha
  rcases List.mem_append.mp ha with h | h
  · fin_cases h <;> rfl
  · exact forall_of_cleanPhone_eq_self ht a h

lemma cleanPhone_drop_eq_self {l : List Char} (n : Nat)
    (h : cleanPhone l = l) : cleanPhone (l.drop n) = l.drop n := by
  apply cleanPhone_eq_self_of_forall
  intro a ha
  exact forall_of_cleanPhone_eq_self h a (List.drop_subset n l ha)

lemma startsWithL_p0034_pp34 (t : List Char) :
    startsWithL p0034 (pp34 ++ t) = false := rfl

lemma startsWithL_p34_pp34 (t : List Char) :
    startsWithL p34 (pp34 ++ t) = false := rfl

lemma startsWithL_pp34_pp34 (t : List Char) :
    startsWithL pp34 (pp34 ++ t) = true := by
  simp [pp34, startsWithL]

lemma normCore_pp34 (t : List Char) : normCore (pp34 ++ t) = pp34 ++ t := by
  unfold normCore
  rw [startsWithL_p0034_pp34, startsWithL_p34_pp34, startsWithL_pp34_pp34]
  simp

lemma normCore_nil : normCore [] = [] := rfl

/-- If `c` is already free of stripped characters, `normCore c` is a
fixed point of the whole `normalize_phone` pipeline. -/
lemma normalizePhoneL_normCore {c : List Char} (h : cleanPhone c = c) :
    normalizePhoneL (normCore c) = normCore c := by
  unfold normCore
  split
  · -- `0034…` rewritten to `+34…`
    have hc : cleanPhone (pp34 ++ c.drop 4) = pp34 ++ c.drop 4 :=
      cleanPhone_pp34_append (cleanPhone_drop_eq_self 4 h)
    unfold normalizePhoneL
    rw [if_neg (by simp [pp34]), hc, normCore_pp34]
  · split
    · -- bare `34`-led 11+ digit number rewritten to `+34…`
      have hc : cleanPhone (pp34 ++ c.drop 2) = pp34 ++ c.drop 2 :=
        cleanPhone_pp34_append (cleanPhone_drop_eq_self 2 h)
      unfold normalizePhoneL
      rw [if_neg (by simp [pp34]), hc, normCore_pp34]
    · split
      · -- bare 9-digit number prefixed with `+34`
        have hc : cleanPhone (pp34 ++ c) = pp34 ++ c := cleanPhone_pp34_append h
        unfold normalizePhoneL
        rw [if_neg (by simp [pp34]), hc, normCore_pp34]
      · -- returned unchanged
        rename_i h1 h2 h3
        unfold normalizePhoneL
        split
        · rename_i hnil
          subst hnil
          rfl
        · rw [h]
          unfold normCore
          rw [if_neg (by simpa using h1), if_neg (by simpa using h2),
            if_neg (by simpa using h3)]

lemma normalizePhoneL_idem (l : List Char) :
    normalizePhoneL (normalizePhoneL l) = normalizePhoneL l := by
  by_cases hl : l = []
  · subst hl; rfl
  · have : normalizePhoneL l = normCore (cleanPhone l) := by
      unfold normalizePhoneL
      rw [if_neg hl]
    rw [this]
    exact normalizePhoneL_normCore (cleanPhone_idem l)

/-- Claim C2 (counterexample): the spec's trio of validator verdicts does
not hold on the code — `is_valid_email "info@examplebusiness.es"` is
`false`, because the address contains the denylisted substring
`example` (line 197), not `true` as the spec asserts. -/
theorem c2_spec_verdicts_false :
    ¬ (is_valid_email "tracking@sentry.io" = false
       ∧ is_valid_email "info@examplebusiness.es" = true
       ∧ is_valid_email "a1b2c3d4e5f6a1b2c3d4e5f6a1b2c3d4@mailer.com" = false) := by
  decide

/-- Claim C2 (amended): the validator returns `false` on all three of the
spec's test inputs: `tracking@sentry.io` (technical domain),
`info@examplebusiness.es` (contains the denylisted substring `example`)
and the 32-hex-digit local part (technical-id pattern). -/
theorem c2_validator_verdicts :
    is_valid_email "tracking@sentry.io" = false
    ∧ is_valid_email "info@examplebusiness.es" = false
    ∧ is_valid_email "a1b2c3d4e5f6a1b2c3d4e5f6a1b2c3d4@mailer.com" = false := by
  decide

/-- Claim C1 (code evaluation at the failing input): because the
nine-digit body of `phone_pattern` lies outside every capture group,
`findall` yields only the prefix captures, so for page content
`"+34612345678"` the extractor returns `["+34"]` — the normalized full
number `"+34612345678"` does not appear — and for a bare nine-digit
number it returns `[""]`. -/
theorem c1_phone_body_lost :
    extract_phones "+34612345678" = ["+34"]
    ∧ normalize_phone "+34612345678" = "+34612345678"
    ∧ "+34612345678" ∉ extract_phones "+34612345678"
    ∧ extract_phones "612345678" = [""] := by
  decide

/-- Claim C7: `normalize_phone` is idempotent —
`normalize_phone (normalize_phone x) = normalize_phone x` for every
string `x`. -/
theorem c7_normalize_phone_idempotent (x : String) :
    normalize_phone (normalize_phone x) = normalize_phone x :=
  congrArg String.mk (normalizePhoneL_idem x.data)

lemma dictGet_dictSet (d : PyDict) (k k' : String) (v : PyVal) :
    dictGet (dictSet d k v) k' = if k = k' then some v else dictGet d k' := by
  induction d with
  | nil => simp [dictGet, dictSet]
  | cons kv rest ih =>
    obtain ⟨k'', v''⟩ := kv
    simp only [dictSet]
    split
    · rename_i h1
      subst h1
      by_cases h2 : k'' = k' <;> simp [dictGet, h2]
    · rename_i h1
      by_cases h2 : k'' = k'
      · have hkk : ¬ (k = k') := fun he => h1 (h2.trans he.symm)
        simp [dictGet, h2, hkk]
      · simp [dictGet, h2, ih]

lemma dictGet_dictSet_same (d : PyDict) (k : String) (v : PyVal) :
    dictGet (dictSet d k v) k = some v := by
  simp [dictGet_dictSet]

lemma dictGet_dictSet_ne (d : PyDict) (a k : String) (v : PyVal) (h : a ≠ k) :
    dictGet (dictSet d a v) k = dictGet d k := by
  rw [dictGet_dictSet, if_neg h]

lemma getVRes_setVR (d : PyDict) (f : VRes → VRes) :
    getVRes (setVR d f) = f (getVRes d) := by
  simp [getVRes, setVR, dictGet_dictSet_same]

lemma dictGet_setVR_ne (d : PyDict) (f : VRes → VRes) (k : String)
    (h : k ≠ "verification_results") :
    dictGet (setVR d f) k = dictGet d k := by
  rw [setVR, dictGet_dictSet_ne _ _ _ _ (fun he => h he.symm)]

lemma getVRes_dictSet_ne (d : PyDict) (a : String) (v : PyVal)
    (h : a ≠ "verification_results") :
    getVRes (dictSet d a v) = getVRes d := by
  simp [getVRes, dictGet_dictSet_ne _ _ _ _ h]

lemma crawl_pages (uj : String → String → String)
    (fetch : String → List String × List String) (base : String)
    (paths pages es ps : List String) :
    (crawl uj fetch base paths pages es ps).1
      = pages ++ paths.map (fun p => uj base p) := by
  induction paths generalizing pages es ps with
  | nil => simp [crawl]
  | cons p rest ih => simp [crawl, ih]

/-! ## Facts about the worker pieces -/

lemma dictGet_email_workerInit (b : PyDict) :
    dictGet (workerInit b) "email" = some (dictGetD b "email" (PyVal.str "")) := by
  rw [workerInit, dictGet_dictSet_ne _ _ _ _ (by decide), dictGet_dictSet_same]

lemma getVRes_workerInit (b : PyDict) : getVRes (workerInit b) = vr0 := by
  simp [workerInit, getVRes, dictGet_dictSet_same]

lemma dictGet_workerInit_ne (b : PyDict) (k : String)
    (h1 : k ≠ "email") (h3 : k ≠ "verification_results") :
    dictGet (workerInit b) k = dictGet b k := by
  rw [workerInit, dictGet_dictSet_ne _ _ _ _ (fun he => h3 he.symm),
    dictGet_dictSet_ne _ _ _ _ (fun he => h1 he.symm)]

lemma currentEmailOf_setVR (d : PyDict) (f : VRes → VRes) :
    currentEmailOf (setVR d f) = currentEmailOf d := by
  rw [currentEmailOf, currentEmailOf, dictGet_setVR_ne _ _ _ (by decide)]

lemma currentEmailOf_eq_none {r : PyDict}
    (he : truthyO (dictGet r "email") = false) : currentEmailOf r = Option.none := by
  rw [currentEmailOf]
  cases h : dictGet r "email" with
  | none => rfl
  | some v =>
    rw [h] at he
    simp only [truthyO] at he
    simp [he]

lemma dictGet_email_adoptPhone (r : PyDict) (aP : List String) (cp : String) :
    dictGet (adoptPhone r aP cp) "email" = dictGet r "email" := by
  unfold adoptPhone
  split
  · rw [dictGet_setVR_ne _ _ _ (by decide), dictGet_dictSet_ne _ _ _ _ (by decide)]
  · rfl

lemma emailVerified_adoptPhone (r : PyDict) (aP : List String) (cp : String) :
    (getVRes (adoptPhone r aP cp)).email_verified = (getVRes r).email_verified := by
  unfold adoptPhone
  split
  · rw [getVRes_setVR, getVRes_dictSet_ne _ _ _ (by decide)]
  · rfl

lemma pages_adoptPhone (r : PyDict) (aP : List String) (cp : String) :
    (getVRes (adoptPhone r aP cp)).pages_checked = (getVRes r).pages_checked := by
  unfold adoptPhone
  split
  · rw [getVRes_setVR, getVRes_dictSet_ne _ _ _ (by decide)]
  · rfl

lemma pages_adoptEmail (r : PyDict) (aE : List String) :
    (getVRes (adoptEmail r aE)).pages_checked = (getVRes r).pages_checked := by
  unfold adoptEmail
  cases currentEmailOf r with
  | none =>
    by_cases h : aE ≠ []
    · by_cases h2 : aE.filter is_valid_email ≠ []
      · rw [if_pos h, if_pos h2, getVRes_setVR, getVRes_dictSet_ne _ _ _ (by decide)]
      · simp [h, h2]
    · simp [h]
  | some ce => rfl

lemma pages_reconcile (r : PyDict) (cp : String) (aE aP : List String) :
    (getVRes (reconcile r cp aE aP)).pages_checked = (getVRes r).pages_checked := by
  rw [reconcile, pages_adoptPhone, pages_adoptEmail, vrSetFlags, getVRes_setVR,
    vrSetFound, getVRes_setVR]

lemma frame_adoptEmail (r : PyDict) (aE : List String) (k : String)
    (h1 : k ≠ "email") (h3 : k ≠ "verification_results") :
    dictGet (adoptEmail r aE) k = dictGet r k := by
  unfold adoptEmail
  cases currentEmailOf r with
  | none =>
    by_cases h : aE ≠ []
    · by_cases h2 : aE.filter is_valid_email ≠ []
      · rw [if_pos h, if_pos h2, dictGet_setVR_ne _ _ _ h3,
          dictGet_dictSet_ne _ _ _ _ (fun he => h1 he.symm)]
      · simp [h, h2]
    · simp [h]
  | some ce => rfl

lemma frame_adoptPhone (r : PyDict) (aP : List String) (cp : String) (k : String)
    (h2 : k ≠ "telefono") (h3 : k ≠ "verification_results") :
    dictGet (adoptPhone r aP cp) k = dictGet r k := by
  unfold adoptPhone
  split
  · rw [dictGet_setVR_ne _ _ _ h3, dictGet_dictSet_ne _ _ _ _ (fun he => h2 he.symm)]
  · rfl

lemma frame_reconcile (r : PyDict) (cp : String) (aE aP : List String) (k : String)
    (h1 : k ≠ "email") (h2 : k ≠ "telefono") (h3 : k ≠ "verification_results") :
    dictGet (reconcile r cp aE aP) k = dictGet r k := by
  rw [reconcile, frame_adoptPhone _ _ _ _ h2 h3, frame_adoptEmail _ _ _ h1 h3,
    vrSetFlags, dictGet_setVR_ne _ _ _ h3, vrSetFound, dictGet_setVR_ne _ _ _ h3]

lemma truthyO_email_workerInit (b : PyDict)
    (he : truthyO (dictGet b "email") = false) :
    truthyO (dictGet (workerInit b) "email") = false := by
  rw [dictGet_email_workerInit]
  cases h : dictGet b "email" with
  | none => simp [truthyO, dictGetD, h, truthy]
  | some v =>
    rw [h] at he
    simpa [truthyO, dictGetD, h] using he

/-- The reconciliation step adopts the head of the validator-filtered
accumulated email list and marks it verified, whenever the record's
`email` slot is falsy and that filtered list is non-empty. -/
lemma reconcile_adopt (r : PyDict) (cp : String) (aE aP : List String)
    (he : truthyO (dictGet r "email") = false)
    (hne : aE.filter is_valid_email ≠ []) :
    dictGet (reconcile r cp aE aP) "email"
      = some (PyVal.str ((aE.filter is_valid_email).headD ""))
    ∧ (getVRes (reconcile r cp aE aP)).email_verified = true := by
  have haE : aE ≠ [] := fun h => hne (by simp [h])
  have hce : currentEmailOf (vrSetFlags (vrSetFound r aE aP) aE aP cp) = Option.none := by
    rw [vrSetFlags, currentEmailOf_setVR, vrSetFound, currentEmailOf_setVR]
    exact currentEmailOf_eq_none he
  have hAE : adoptEmail (vrSetFlags (vrSetFound r aE aP) aE aP cp) aE
      = setVR (dictSet (vrSetFlags (vrSetFound r aE aP) aE aP cp) "email"
          (PyVal.str ((aE.filter is_valid_email).headD "")))
        (fun v => { v with email_verified := true }) := by
    rw [adoptEmail, hce]
    simp [haE, hne]
  constructor
  · rw [reconcile, dictGet_email_adoptPhone, hAE,
      dictGet_setVR_ne _ _ _ (by decide), dictGet_dictSet_same]
  · rw [reconcile, emailVerified_adoptPhone, hAE, getVRes_setVR]

/-! ## Branch equations for `runWorker` -/

lemma runWorker_eq_noweb (uj : String → String → String)
    (fetch : String → List String × List String) (setup : Option String)
    (b : PyDict) (pr : Progress)
    (hw : truthy (dictGetD b "sitio_web" PyVal.pynone) = false) :
    runWorker uj fetch setup b pr
      = ⟨b, workerNoWebsite b, [], updateProgress pr (workerNoWebsite b)⟩ := by
  simp [runWorker, hw]

lemma runWorker_eq_setupfail (uj : String → String → String)
    (fetch : String → List String × List String) (msg : String)
    (b : PyDict) (pr : Progress)
    (hw : truthy (dictGetD b "sitio_web" PyVal.pynone) = true) :
    runWorker uj fetch (some msg) b pr
      = ⟨b, workerSetupFail b msg, [], updateProgress pr (workerSetupFail b msg)⟩ := by
  simp [runWorker, hw]

lemma runWorker_eq_main (uj : String → String → String)
    (fetch : String → List String × List String) (b : PyDict) (pr : Progress)
    (hw : truthy (dictGetD b "sitio_web" PyVal.pynone) = true) :
    runWorker uj fetch Option.none b pr
      = ⟨b, workerMainResult uj fetch b, (workerCrawl uj fetch b).1,
          updateProgress pr (workerMainResult uj fetch b)⟩ := by
  simp [runWorker, hw]

/-! ## Claims C3, C8, C9, C10 -/

/-- Claim C3: when a business record has a truthy website, no
pre-existing email, and the crawled pages accumulate at least one
validator-accepted email, the worker adopts the first validator-accepted
one as the record's `email` and sets `email_verified := true`. -/
theorem c3_adopts_first_accepted (uj : String → String → String)
    (fetch : String → List String × List String) (b : PyDict) (pr : Progress)
    (hw : truthy (dictGetD b "sitio_web" PyVal.pynone) = true)
    (he : truthyO (dictGet b "email") = false)
    (hne : ((workerCrawl uj fetch b).2.1).filter is_valid_email ≠ []) :
    dictGet (runWorker uj fetch Option.none b pr).result "email"
      = some (PyVal.str ((((workerCrawl uj fetch b).2.1).filter is_valid_email).headD ""))
    ∧ (getVRes (runWorker uj fetch Option.none b pr).result).email_verified = true := by
  have he'' : ∀ f, truthyO (dictGet (setVR (workerInit b) f) "email") = false := by
    intro f
    rw [dictGet_setVR_ne _ _ _ (by decide)]
    exact truthyO_email_workerInit b he
  rw [runWorker_eq_main _ _ _ _ hw]
  exact reconcile_adopt _ _ _ _ (he'' _) hne

/-- Claim C3 (witness): the spec's instance — scraped candidates
`{"ventas@acme.es", "noreply@acme.es"}` with no pre-existing email —
yields `email == "ventas@acme.es"` (`noreply@…` is denylisted) and
`email_verified == true`. -/
theorem c3_witness :
    dictGet (runWorker ujApp c3fetch Option.none c3biz pr0).result "email"
      = some (PyVal.str "ventas@acme.es")
    ∧ (getVRes (runWorker ujApp c3fetch Option.none c3biz pr0).result).email_verified
      = true := by
  have h := c3_adopts_first_accepted ujApp c3fetch c3biz pr0
    (by decide) (by decide) (by decide)
  exact ⟨h.1.trans (by decide), h.2⟩

/-- Claim C8: a business whose `sitio_web` is absent or `None` yields an
outcome with `error == "No hay website"` and empty found-sets, no URL is
ever handed to the extractor, and the business still counts toward
`processed_count`. -/
theorem c8_no_website (uj : String → String → String)
    (fetch : String → List String × List String) (setup : Option String)
    (b : PyDict) (pr : Progress)
    (h : dictGet b "sitio_web" = Option.none
         ∨ dictGet b "sitio_web" = some PyVal.pynone) :
    (getVRes (runWorker uj fetch setup b pr).result).error = some "No hay website"
    ∧ (getVRes (runWorker uj fetch setup b pr).result).emails_found = []
    ∧ (getVRes (runWorker uj fetch setup b pr).result).phones_found = []
    ∧ (runWorker uj fetch setup b pr).fetched = []
    ∧ (runWorker uj fetch setup b pr).progress.processed_count
      = pr.processed_count + 1 := by
  have hw : truthy (dictGetD b "sitio_web" PyVal.pynone) = false := by
    rcases h with h | h <;> simp [dictGetD, h, truthy]
  rw [runWorker_eq_noweb _ _ _ _ _ hw]
  simp [workerNoWebsite, getVRes_setVR, getVRes_workerInit, updateProgress, vr0]

/-- Claim C8 (witness): a concrete record with no `sitio_web` key. -/
theorem c8_witness :
    (getVRes (runWorker ujApp c3fetch Option.none [("nombre", PyVal.str "X")] pr0).result).error
      = some "No hay website"
    ∧ (getVRes (runWorker ujApp c3fetch Option.none [("nombre", PyVal.str "X")] pr0).result).emails_found = []
    ∧ (getVRes (runWorker ujApp c3fetch Option.none [("nombre", PyVal.str "X")] pr0).result).phones_found = []
    ∧ (runWorker ujApp c3fetch Option.none [("nombre", PyVal.str "X")] pr0).fetched = []
    ∧ (runWorker ujApp c3fetch Option.none [("nombre", PyVal.str "X")] pr0).progress.processed_count
      = pr0.processed_count + 1 :=
  c8_no_website ujApp c3fetch Option.none [("nombre", PyVal.str "X")] pr0 (Or.inl rfl)

/-- Claim C9: in every worker outcome — error outcomes included — the
`pages_checked` sequence never exceeds the configured contact-path list
length: each configured path contributes at most one URL. -/
theorem c9_pages_checked_le (uj : String → String → String)
    (fetch : String → List String × List String) (setup : Option String)
    (b : PyDict) (pr : Progress) :
    (getVRes (runWorker uj fetch setup b pr).result).pages_checked.length
      ≤ contact_paths.length := by
  by_cases hw : truthy (dictGetD b "sitio_web" PyVal.pynone) = true
  · cases setup with
    | none =>
      rw [runWorker_eq_main _ _ _ _ hw]
      simp only [workerMainResult, pages_reconcile, getVRes_setVR]
      simp [workerCrawl, crawl_pages]
    | some msg =>
      rw [runWorker_eq_setupfail _ _ _ _ _ hw]
      simp [workerSetupFail, getVRes_setVR, getVRes_workerInit, vr0]
  · rw [runWorker_eq_noweb _ _ _ _ _ (by simpa using hw)]
    simp [workerNoWebsite, getVRes_setVR, getVRes_workerInit, vr0]

/-- Claim C10: the worker never mutates its input business dict — the
threaded input comes back unchanged — and it builds the returned record
by writing only `email`, `telefono` and `verification_results` on a copy
of the input, so every other key reads the same as in the input. -/
theorem c10_input_not_mutated (uj : String → String → String)
    (fetch : String → List String × List String) (setup : Option String)
    (b : PyDict) (pr : Progress) :
    (runWorker uj fetch setup b pr).business = b
    ∧ ∀ k, k ≠ "email" → k ≠ "telefono" → k ≠ "verification_results" →
        dictGet (runWorker uj fetch setup b pr).result k = dictGet b k := by
  by_cases hw : truthy (dictGetD b "sitio_web" PyVal.pynone) = true
  · cases setup with
    | none =>
      rw [runWorker_eq_main _ _ _ _ hw]
      refine ⟨rfl, fun k h1 h2 h3 => ?_⟩
      rw [workerMainResult, frame_reconcile _ _ _ _ _ h1 h2 h3,
        dictGet_setVR_ne _ _ _ h3, dictGet_workerInit_ne _ _ h1 h3]
    | some msg =>
      rw [runWorker_eq_setupfail _ _ _ _ _ hw]
      refine ⟨rfl, fun k h1 h2 h3 => ?_⟩
      rw [workerSetupFail, dictGet_setVR_ne _ _ _ h3, dictGet_workerInit_ne _ _ h1 h3]
  · rw [runWorker_eq_noweb _ _ _ _ _ (by simpa using hw)]
    refine ⟨rfl, fun k h1 h2 h3 => ?_⟩
    rw [workerNoWebsite, dictGet_setVR_ne _ _ _ h3, dictGet_workerInit_ne _ _ h1 h3]

/-- Claim C10 (witness): a concrete record with an extra opaque field
keeps that field readable and the input unchanged. -/
theorem c10_witness :
    (runWorker ujApp c3fetch Option.none
        [("nombre", PyVal.str "A"), ("extra", PyVal.other 7)] pr0).business
      = [("nombre", PyVal.str "A"), ("extra", PyVal.other 7)]
    ∧ dictGet (runWorker ujApp c3fetch Option.none
        [("nombre", PyVal.str "A"), ("extra", PyVal.other 7)] pr0).result "extra"
      = some (PyVal.other 7) := by
  have h := c10_input_not_mutated ujApp c3fetch Option.none
    [("nombre", PyVal.str "A"), ("extra", PyVal.other 7)] pr0
  exact ⟨h.1, (h.2 "extra" (by decide) (by decide) (by decide)).trans (by decide)⟩

/-- Claim C6 (code evaluation at the failing input): for the two-business
input `[A (no email), B (email b@b.es)]` whose workers find nothing new,
with workers completing in the order `B, A`, the orchestrator's formula
reports `1` new email while the number of businesses that actually
gained a new email is `0` — the completion-rank index pairs `B`'s result
with `A`'s input record. -/
theorem c6_new_email_count_wrong :
    newEmailsCode [c6b0, c6b1] [c6r1, c6r0] = 1
    ∧ newEmailsTrue [c6b0, c6b1] [c6r0, c6r1] = 0 := by
  decide

/-- Claim C5 (counterexample): in a directory containing exactly
`negocios_zoneA.json` and `email_negocios_zoneA.json`, the input file is
still processed — the claim's instance says it must be skipped.  The
replace-all mapping sends the existing output-like name to
`negocios_negocios_zoneA.json`, which matches no input. -/
theorem c5_skip_fails_on_spec_instance :
    "negocios_zoneA.json"
      ∈ filesToProcessM ["negocios_zoneA.json", "email_negocios_zoneA.json"]
    ∧ emailToNeg "email_negocios_zoneA.json" = "negocios_negocios_zoneA.json" := by
  decide

/-- Claim C5 (amended): an input file is excluded from processing exactly
when some existing `email_*.json` file, after replacing every occurrence
of `email_` with `negocios_` in its name, equals the input's name.  In
particular `negocios_zoneA.json` is skipped when `email_zoneA.json`
exists — not when `email_negocios_zoneA.json` does. -/
theorem c5_exclusion_characterization (listing : List String) (f : String)
    (hf : f ∈ getInputNames listing) :
    (f ∉ filesToProcessM listing
      ↔ ∃ e, e ∈ listing ∧ matchEmailGlob e = true ∧ emailToNeg e = f) := by
  have h1 : f ∉ filesToProcessM listing ↔ f ∈ getProcessedNames listing := by
    simp [filesToProcessM, List.mem_filter, hf]
  rw [h1]
  simp only [getProcessedNames, List.mem_map, List.mem_filter]
  constructor
  · rintro ⟨e, ⟨he, hm⟩, hr⟩
    exact ⟨e, he, hm, hr⟩
  · rintro ⟨e, he, hm, hr⟩
    exact ⟨e, ⟨he, hm⟩, hr⟩

/-- Claim C5 (witness): with the code's actual output-name convention,
`negocios_zoneA.json` is indeed skipped when `email_zoneA.json` exists. -/
theorem c5_witness :
    "negocios_zoneA.json" ∉ filesToProcessM ["negocios_zoneA.json", "email_zoneA.json"] :=
  (c5_exclusion_characterization ["negocios_zoneA.json", "email_zoneA.json"]
      "negocios_zoneA.json" (by decide)).mpr
    ⟨"email_zoneA.json", by decide, by decide, by decide⟩

lemma perm_cons_removeFirst {p : Nat × Nat} :
    ∀ {l : List (Nat × Nat)}, p ∈ l → List.Perm l (p :: removeFirst p l)
  | [], h => absurd h (List.not_mem_nil p)
  | x :: xs, h => by
    by_cases hx : x = p
    · subst hx
      simp [removeFirst]
    · have hmem : p ∈ xs := by
        rcases List.mem_cons.mp h with h' | h'
        · exact absurd h'.symm hx
        · exact h'
      rw [removeFirst, if_neg hx]
      exact ((perm_cons_removeFirst hmem).cons x).trans (List.Perm.swap p x _)

lemma mem_removeFirst_of_ne {a p : Nat × Nat} (hne : a ≠ p) :
    ∀ {l : List (Nat × Nat)}, a ∈ l → a ∈ removeFirst p l := by
  intro l h
  induction l with
  | nil => cases h
  | cons x xs ih =>
    rcases List.mem_cons.mp h with h' | h'
    · subst h'
      rw [removeFirst, if_neg hne]
      exact List.mem_cons_self _ _
    · by_cases hx : x = p
      · rw [removeFirst, if_pos hx]
        exact h'
      · rw [removeFirst, if_neg hx]
        exact List.mem_cons_of_mem _ (ih h')

lemma poolStep_inv {s t : PoolState} (hst : PoolStep s t) (hs : PoolInv s) :
    PoolInv t := by
  cases hst with
  | get w b q h =>
    unfold PoolInv at *
    simp only [List.map_cons] at *
    exact (List.Perm.nodup_iff List.perm_middle).mpr hs
  | put w b q h hmem =>
    unfold PoolInv at *
    have hp2 : List.Perm (h.map Prod.snd) (b :: (removeFirst (w, b) h).map Prod.snd) := by
      simpa using (perm_cons_removeFirst hmem).map Prod.snd
    have hp3 : List.Perm (q ++ h.map Prod.snd)
        (q ++ b :: (removeFirst (w, b) h).map Prod.snd) :=
      List.Perm.append_left q hp2
    have : (q ++ b :: (removeFirst (w, b) h).map Prod.snd).Nodup :=
      (List.Perm.nodup_iff hp3).mp hs
    simpa [List.append_assoc] using this

lemma poolReachable_inv {n : Nat} {s : PoolState} (h : PoolReachable n s) :
    PoolInv s := by
  induction h with
  | refl => simp [PoolInv, initPool, List.nodup_range]
  | tail hst step ih => exact poolStep_inv step ih

/-- Claim C4: in every state reachable by any interleaving of
`get_browser` / `return_browser` steps from the initialized pool, no two
workers hold the same browser instance — the held (worker, browser)
pairs determine the worker from the browser. -/
theorem c4_browser_mutual_exclusion (n : Nat) (s : PoolState)
    (hr : PoolReachable n s) (w1 w2 b : Nat)
    (h1 : (w1, b) ∈ s.holding) (h2 : (w2, b) ∈ s.holding) : w1 = w2 := by
  have hinv := poolReachable_inv hr
  have hnd : (s.holding.map Prod.snd).Nodup := List.Nodup.of_append_right hinv
  by_contra hne
  have hpairs : (w2, b) ≠ (w1, b) := fun he => hne (congrArg Prod.fst he).symm
  have hmem2 : (w2, b) ∈ removeFirst (w1, b) s.holding :=
    mem_removeFirst_of_ne hpairs h2
  have hperm : List.Perm s.holding ((w1, b) :: removeFirst (w1, b) s.holding) :=
    perm_cons_removeFirst h1
  have hnd2 : (((w1, b) :: removeFirst (w1, b) s.holding).map Prod.snd).Nodup :=
    (List.Perm.nodup_iff (hperm.map Prod.snd)).mp hnd
  simp only [List.map_cons, List.nodup_cons] at hnd2
  exact hnd2.1 (List.mem_map.mpr ⟨(w2, b), hmem2, rfl⟩)

/-- Claim C4 (witness): with a pool of two browsers, after worker 7
acquires browser 0 the reachable state `⟨[1], [(7, 0)]⟩` satisfies the
theorem's hypotheses. -/
theorem c4_witness : (7 : Nat) = 7 :=
  c4_browser_mutual_exclusion 2 ⟨[1], [(7, 0)]⟩
    (Relation.ReflTransGen.single (PoolStep.get 7 0 [1] []))
    7 7 0 (by decide) (by decide)

end Poligonos
